import Mathlib

/-!
Verification of the ng-typeview expression-rewriting and synthesis pipeline.

The development shallowly embeds:
- the scope-accessor rewriting operation (addScopeAccessors); its
  implementation file (src/view-ngexpression-parser.ts) is not part of the
  sources at hand (only its unit tests and its callers are), so it is
  modelled from the specification and cross-checked against the unit-test
  expectations that are part of the sources;
- the synthesis stage of the main file (formatViewExpr, indentChange, the
  indent-level computation, processControllerView, processProjectFolder);
- the TypeScript-extraction traversals of controller-parser.ts
  (parseScopeInterface, extractControllerScopeInfo,
  extractCtrlViewConnsAngularModule).
-/

/-- One local variable of a scope frame: a name and its declared type
(specification section 3, Scope Frame locals). -/
structure NgScopeVar where
  name : String
  type : String

/-- Modelled from the spec: the NgScope scope-frame type of
src/view-parser.ts, which is missing from the sources; its shape
(xpathDepth, closeSource, variables) is taken from the unit tests present in
the sources and from specification section 3 (Scope Frame: depth,
closingText, locals). -/
structure NgScope where
  xpathDepth : Nat
  closeSource : Unit → String
  -- the source field is called variables; that word is a reserved command
  -- name in Lean, hence the shortened field name
  vars : List NgScopeVar

mutual

/-- Modelled from the spec: the parsed-expression grammar of the missing
expression-parser file (specification section 4.2): identifiers, literals
(numeric, boolean, null, rendered verbatim from their text), string
literals, regular-expression literals, member access with a dot and with
brackets, function calls, unary, binary and ternary operators, array and
object literals.  Object-literal keys and member-access property names are
stored as plain strings because the grammar classifies these positions as
non-rewritable.  (The top-level filter-chain operator is not needed by any
claim and is left out of the modelled fragment.) -/
inductive NgAst where
  | ident (name : String)
  | lit (text : String)
  | strLit (text : String)
  | regex (pattern : String)
  | member (obj : NgAst) (prop : String)
  | index (obj : NgAst) (idx : NgAst)
  | call (fn : NgAst) (args : NgAstList)
  | unary (op : String) (arg : NgAst)
  | binary (op : String) (lhs : NgAst) (rhs : NgAst)
  | ternary (cond : NgAst) (thn : NgAst) (els : NgAst)
  | arrayLit (elems : NgAstList)
  | objectLit (fields : NgFieldList)

/-- Argument and element lists of the expression grammar. -/
inductive NgAstList where
  | nil
  | cons (hd : NgAst) (tl : NgAstList)

/-- Object-literal field lists: a verbatim key plus a value expression. -/
inductive NgFieldList where
  | nil
  | cons (key : String) (val : NgAst) (tl : NgFieldList)

end

/-- Does some frame of the scope stack bind the given name?  Specification
section 4.3 resolves innermost to outermost; since a bound local is emitted
unqualified whichever frame binds it, the emitted text only depends on
whether any frame binds the name. -/
def boundInScope (scopes : List NgScope) (n : String) : Bool :=
  scopes.any (fun f => f.vars.any (fun v => v.name == n))

mutual

/-- Modelled from the spec: addScopeAccessors of
src/view-ngexpression-parser.ts, whose implementation file is missing from
the sources (only its unit tests and its callers are present).
Specification section 4.3: re-serialize the parsed tree depth-first; a
value-position identifier bound by some scope frame is emitted unqualified,
an unbound one is emitted qualified by the component accessor "$scope.";
property-name-position identifiers and object-literal keys are emitted
verbatim; string-literal contents are emitted untouched; regular-expression
literals are emitted in constructor-call form. -/
def addScopeAccessors (scopes : List NgScope) : NgAst → String
  | .ident n => if boundInScope scopes n then n else "$scope." ++ n
  | .lit t => t
  | .strLit t => "\x27" ++ t ++ "\x27"
  | .regex p => "new RegExp(\"" ++ p ++ "\")"
  | .member o p => addScopeAccessors scopes o ++ "." ++ p
  | .index o i => addScopeAccessors scopes o ++ "[" ++ addScopeAccessors scopes i ++ "]"
  | .call f args =>
      addScopeAccessors scopes f ++ "(" ++ addScopeAccessorsArgs scopes args ++ ")"
  | .unary op a => op ++ addScopeAccessors scopes a
  | .binary op l r =>
      addScopeAccessors scopes l ++ " " ++ op ++ " " ++ addScopeAccessors scopes r
  | .ternary c t e =>
      addScopeAccessors scopes c ++ " ? " ++ addScopeAccessors scopes t ++
        " : " ++ addScopeAccessors scopes e
  | .arrayLit es => "[" ++ addScopeAccessorsArgs scopes es ++ "]"
  | .objectLit fs => "\x7b" ++ addScopeAccessorsFields scopes fs ++ "\x7d"

/-- Comma-separated rewriting of argument and element lists. -/
def addScopeAccessorsArgs (scopes : List NgScope) : NgAstList → String
  | .nil => ""
  | .cons hd .nil => addScopeAccessors scopes hd
  | .cons hd tl => addScopeAccessors scopes hd ++ ", " ++ addScopeAccessorsArgs scopes tl

/-- Object-literal fields: the key is emitted verbatim, the value is
rewritten. -/
def addScopeAccessorsFields (scopes : List NgScope) : NgFieldList → String
  | .nil => ""
  | .cons k v .nil => k ++ ": " ++ addScopeAccessors scopes v
  | .cons k v tl =>
      k ++ ": " ++ addScopeAccessors scopes v ++ ", " ++ addScopeAccessorsFields scopes tl

end

mutual

/-- The claim-level serialization for the empty scope stack, written after
the words of claim C1 and specification section 8: EVERY free value-position
identifier occurrence is emitted with the component accessor prepended, and
every other construct is re-serialized as is (to be compared with
addScopeAccessors applied to the empty stack). -/
def qualifyAll : NgAst → String
  | .ident n => "$scope." ++ n
  | .lit t => t
  | .strLit t => "\x27" ++ t ++ "\x27"
  | .regex p => "new RegExp(\"" ++ p ++ "\")"
  | .member o p => qualifyAll o ++ "." ++ p
  | .index o i => qualifyAll o ++ "[" ++ qualifyAll i ++ "]"
  | .call f args => qualifyAll f ++ "(" ++ qualifyAllArgs args ++ ")"
  | .unary op a => op ++ qualifyAll a
  | .binary op l r => qualifyAll l ++ " " ++ op ++ " " ++ qualifyAll r
  | .ternary c t e => qualifyAll c ++ " ? " ++ qualifyAll t ++ " : " ++ qualifyAll e
  | .arrayLit es => "[" ++ qualifyAllArgs es ++ "]"
  | .objectLit fs => "\x7b" ++ qualifyAllFields fs ++ "\x7d"

/-- Claim-level serialization of argument lists. -/
def qualifyAllArgs : NgAstList → String
  | .nil => ""
  | .cons hd .nil => qualifyAll hd
  | .cons hd tl => qualifyAll hd ++ ", " ++ qualifyAllArgs tl

/-- Claim-level serialization of object-literal fields. -/
def qualifyAllFields : NgFieldList → String
  | .nil => ""
  | .cons k v .nil => k ++ ": " ++ qualifyAll v
  | .cons k v tl => k ++ ": " ++ qualifyAll v ++ ", " ++ qualifyAllFields tl

end

/-- The expression made of one identifier followed by a chain of dotted
member accesses, e.g. mkPath "data" ["value"] stands for data.value. -/
def mkPath (x : String) (xs : List String) : NgAst :=
  xs.foldl (fun acc p => NgAst.member acc p) (NgAst.ident x)

/-- Plain dotted rendering of a path, e.g. data.value. -/
def dotted (x : String) (xs : List String) : String :=
  xs.foldl (fun acc p => acc ++ "." ++ p) x

/-- The instruction stream elements of the main file: the three classes
ParsedVariable, LoopStart and LoopEnd imported from the view-parser module.
A ParsedVariable carries its declared type and its (parsed) expression, a
LoopStart carries its loop header text, a LoopEnd carries nothing. -/
inductive ParsedExpression where
  | ParsedVariable (type : String) (expr : NgAst)
  | LoopStart (loopExpr : String)
  | LoopEnd

/-- The JS idiom " ".repeat(n) used by formatViewExpr.  In JS a negative
repetition count throws; the synthesis claims only ever apply it at
non-negative counts, and the model clamps at zero. -/
def jsSpaces (n : Int) : String :=
  String.mk (List.replicate n.toNat ' ')

/-- formatViewExpr of the main file, with the module-global counter
`var i: number = 0` made explicit: the counter value is taken as an input
and the updated counter is returned.  The source formats one
(ParsedExpression, indentLevel) pair:
a ParsedVariable becomes a fresh const binding at (1+indentLevel)*4 spaces
and increments the global counter (i++), a LoopStart is emitted verbatim at
indentLevel*4 spaces, a LoopEnd is emitted as a closing brace at
(1+indentLevel)*4 spaces. -/
def formatViewExpr (i : Nat) : ParsedExpression × Int → String × Nat
  | (.ParsedVariable ty ex, indentLevel) =>
      (jsSpaces ((1 + indentLevel) * 4) ++ "const ___x" ++ toString i ++ ": " ++ ty ++
        " = " ++ addScopeAccessors [] ex ++ ";", i + 1)
  | (.LoopStart loopExpr, indentLevel) =>
      (jsSpaces (indentLevel * 4) ++ loopExpr, i)
  | (.LoopEnd, indentLevel) =>
      (jsSpaces ((1 + indentLevel) * 4) ++ "\x7d", i)

/-- indentChange of the main file: +1 for a LoopStart, -1 for a LoopEnd,
0 otherwise. -/
def indentChange : ParsedExpression → Int
  | .LoopStart _ => 1
  | .LoopEnd => -1
  | _ => 0

/-- viewLevels of the main file (processControllerView): the reduce that
pushes, for every instruction, the previous last level (0 when the list is
still empty, which is what the JS expression soFar.last() || 0 yields)
plus the indent change of the current instruction. -/
def viewLevels (viewExprs : List ParsedExpression) : List Int :=
  viewExprs.foldl
    (fun soFar cur => soFar ++ [(soFar.getLast?.getD 0) + indentChange cur]) []

/-- Transparent recursive characterization of the indent levels: each level
is the running sum of indent changes, inclusive of the current instruction,
starting from a. -/
def levelsFrom (a : Int) : List ParsedExpression → List Int
  | [] => []
  | x :: xs => (a + indentChange x) :: levelsFrom (a + indentChange x) xs

/-- Sum of the indent changes of a stream segment. -/
def sumIC (xs : List ParsedExpression) : Int :=
  (xs.map indentChange).sum

/-- The map of formatViewExpr over the zipped stream, threading the
module-global counter in stream order (the order in which the JS map runs
the i++ side effects). -/
def formatStream (i : Nat) : List (ParsedExpression × Int) → List String × Nat
  | [] => ([], i)
  | x :: xs =>
      let fx := formatViewExpr i x
      let rest := formatStream fx.2 xs
      (fx.1 :: rest.1, rest.2)

/-- Number of ParsedVariable instructions in a zipped stream: each one
increments the module-global fresh-name counter exactly once. -/
def countVars : List (ParsedExpression × Int) → Nat
  | [] => 0
  | (.ParsedVariable _ _, _) :: xs => countVars xs + 1
  | _ :: xs => countVars xs

/-- The ControllerScopeInfo record as consumed by the main file
(processControllerView): a TS module name, the optional scope interface
source, and the imports, type aliases and interfaces copied from the
controller. -/
structure ControllerScopeInfoMain where
  tsModuleName : Option String
  scopeContents : Option String
  imports : List String
  typeAliases : List String
  interfaces : List String

/-- moduleWrap of processControllerView: when the controller has a TS
module, wrap the text in module NAME { ... }, otherwise return it as is. -/
def moduleWrap (tsModuleName : Option String) (x : String) : String :=
  match tsModuleName with
  | some n => "module " ++ n ++ " \x7b\n" ++ x ++ "\n\x7d"
  | none => x

/-- processControllerView of the main file, restricted to its pure
synthesis content.  The I/O boundary (writeFileSync) is modelled by the
returned option: none means the function returned early (no scope block)
and nothing was written; some (text, i) means text was written and the
module-global fresh-name counter advanced to i. -/
def processControllerView (scopeContents : ControllerScopeInfoMain)
    (viewExprs : List ParsedExpression) (i : Nat) : Option (String × Nat) :=
  match scopeContents.scopeContents with
  | none => none
  | some sc =>
      let zipped := viewExprs.zip (viewLevels viewExprs)
      let body := formatStream i zipped
      some (moduleWrap scopeContents.tsModuleName
        (String.intercalate "\n" scopeContents.imports ++ "\n" ++
          String.intercalate "\n" scopeContents.typeAliases ++ "\n" ++
          String.intercalate "\n" scopeContents.interfaces ++ "\n" ++
          sc ++
          "\n\nfunction ___f($scope: Scope) \x7b\n" ++
          String.intercalate "\n" body.1 ++
          "\n\x7d\n") ++ "\n", body.2)

/-- The claim-level synthesized unit of claim C6 and specification section
4.5, written after their words: the formatted instruction stream wrapped in
a synthetic function with exactly one parameter typed as the data shape,
preceded by the imports, type aliases, interfaces and scope contents, and
enclosed in the TS module when one exists (to be compared with
processControllerView). -/
def claimSynthUnit (info : ControllerScopeInfoMain) (sc : String) (body : String) : String :=
  let core := String.intercalate "\n" info.imports ++ "\n" ++
    String.intercalate "\n" info.typeAliases ++ "\n" ++
    String.intercalate "\n" info.interfaces ++ "\n" ++
    sc ++ "\n\nfunction ___f($scope: Scope) \x7b\n" ++ body ++ "\n\x7d\n"
  match info.tsModuleName with
  | some n => "module " ++ n ++ " \x7b\n" ++ core ++ "\n\x7d\n"
  | none => core ++ "\n"

/-- The TypeScript syntax kinds that controller-parser.ts dispatches on,
plus a catch-all for every other kind. -/
inductive SyntaxKind where
  | expressionStatement
  | interfaceDeclaration
  | classDeclaration
  | variableStatement
  | enumDeclaration
  | moduleDeclaration
  | moduleBlock
  | typeAliasDeclaration
  | importEqualsDeclaration
  | callExpression
  | objectLiteralExpression
  | sourceFile
  | otherKind (code : Nat)
deriving DecidableEq

/-- A TypeScript AST node as controller-parser.ts consumes it: its syntax
kind, its name text (node.name.getText() / the module-level string), whether
its modifiers include the export keyword (nodeIsExported), its source text
(node.getText()), its number of type parameters, and its children
(ts.forEachChild traverses them in order). -/
inductive TsNode where
  | mk (kind : SyntaxKind) (name : String) (isExported : Bool)
      (text : String) (typeParams : Nat) (children : List TsNode)

/-- Syntax kind of a node. -/
def TsNode.kind : TsNode → SyntaxKind
  | .mk k _ _ _ _ _ => k

/-- Name text of a node. -/
def TsNode.name : TsNode → String
  | .mk _ n _ _ _ _ => n

/-- Whether the modifiers of the node include the export keyword. -/
def TsNode.isExported : TsNode → Bool
  | .mk _ _ e _ _ _ => e

/-- Source text of a node (node.getText()). -/
def TsNode.text : TsNode → String
  | .mk _ _ _ t _ _ => t

/-- Number of type parameters of the node (iface.typeParameters length). -/
def TsNode.typeParams : TsNode → Nat
  | .mk _ _ _ _ tp _ => tp

/-- Children of a node, in ts.forEachChild order. -/
def TsNode.children : TsNode → List TsNode
  | .mk _ _ _ _ _ cs => cs

/-- The type-parameter rendering of parseScopeInterface: empty when the
interface has no type parameters, otherwise a list T0, T1, ... in angle
brackets. -/
def typeParamsInfo (n : Nat) : String :=
  if 0 < n then
    "<" ++ String.intercalate ", " ((List.range n).map (fun i => "T" ++ toString i)) ++ ">"
  else ""

/-- parseScopeInterface of controller-parser.ts: some (interface source
text, type-parameter text) exactly when the interface declaration is named
Scope, none otherwise. -/
def parseScopeInterface (iface : TsNode) : Option (String × String) :=
  if iface.name = "Scope" then some (iface.text, typeParamsInfo iface.typeParams)
  else none

/-- The ControllerScopeInfo record of controller-parser.ts (the result of
extractControllerScopeInfo). -/
structure ControllerScopeInfo where
  tsModuleName : Option String
  scopeInfo : Option String
  scopeTypeParams : Option String
  typeAliases : List String
  imports : List String
  importNames : List String
  nonExportedDeclarations : List String
  viewFragments : List String

/-- A controller view-fragment extractor (CtrlViewFragmentExtractor):
listens for one syntax kind and returns view fragments for a node. -/
structure CtrlViewFragmentExtractor where
  interceptAstNode : SyntaxKind
  getViewFragments : TsNode → List String

/-- The per-node view-fragment collection of extractControllerScopeInfo:
filter the registered extractors whose intercepted kind matches the node,
then concatenate what each matching extractor returns, in registration
order. -/
def viewFragmentsAtNode (exts : List CtrlViewFragmentExtractor) (node : TsNode) : List String :=
  (exts.filter (fun e => decide (e.interceptAstNode = node.kind))).flatMap
    (fun e => e.getViewFragments node)

/-- One visit of nodeExtractScopeInterface on a single node, updating the
accumulators; parentKind is none at the source file (node.parent is
undefined there, and the JS guard node.parent && ... is then false). -/
def stepScopeNode (exts : List CtrlViewFragmentExtractor) (parentKind : Option SyntaxKind)
    (st : ControllerScopeInfo) (node : TsNode) : ControllerScopeInfo :=
  let st1 :=
    if parentKind = some SyntaxKind.moduleBlock ∧ node.isExported = false then
      if node.kind = SyntaxKind.interfaceDeclaration then
        match parseScopeInterface node with
        | some fs => { st with scopeInfo := some fs.1, scopeTypeParams := some fs.2 }
        | none =>
            { st with nonExportedDeclarations := st.nonExportedDeclarations ++ [node.text] }
      else if node.kind = SyntaxKind.classDeclaration ∨
          node.kind = SyntaxKind.variableStatement ∨
          node.kind = SyntaxKind.enumDeclaration then
        { st with nonExportedDeclarations := st.nonExportedDeclarations ++ [node.text] }
      else st
    else st
  let moduleLevelName : Option String → String := fun t =>
    match t with
    | some m => m ++ "." ++ node.name
    | none => node.name
  let st2 :=
    if node.kind = SyntaxKind.moduleDeclaration then
      { st1 with tsModuleName := some (moduleLevelName st1.tsModuleName) }
    else st1
  let st3 :=
    if node.kind = SyntaxKind.typeAliasDeclaration ∧ node.isExported = false then
      { st2 with typeAliases := st2.typeAliases ++ [node.text] }
    else st2
  let st4 :=
    if node.kind = SyntaxKind.importEqualsDeclaration then
      { st3 with imports := st3.imports ++ [node.text],
                 importNames := st3.importNames ++ [node.name] }
    else st3
  { st4 with viewFragments := st4.viewFragments ++ viewFragmentsAtNode exts node }

mutual

/-- The recursive traversal of nodeExtractScopeInterface: process the node,
then recurse over its children (ts.forEachChild), the node itself becoming
the parent. -/
def scopeVisitNode (exts : List CtrlViewFragmentExtractor) (parentKind : Option SyntaxKind)
    (st : ControllerScopeInfo) : TsNode → ControllerScopeInfo
  | TsNode.mk k n ex tx tp cs =>
      scopeVisitList exts (some k)
        (stepScopeNode exts parentKind st (TsNode.mk k n ex tx tp cs)) cs

/-- Traversal of a child list in order. -/
def scopeVisitList (exts : List CtrlViewFragmentExtractor) (parentKind : Option SyntaxKind)
    (st : ControllerScopeInfo) : List TsNode → ControllerScopeInfo
  | [] => st
  | c :: cs => scopeVisitList exts parentKind (scopeVisitNode exts parentKind st c) cs

end

/-- The initial accumulator state of extractControllerScopeInfo: every
option none, every list empty. -/
def emptyScopeState : ControllerScopeInfo :=
  ⟨none, none, none, [], [], [], [], []⟩

/-- extractControllerScopeInfo of controller-parser.ts: run the
nodeExtractScopeInterface traversal from the source file (which has no
parent) over the empty accumulators. -/
def extractControllerScopeInfo (exts : List CtrlViewFragmentExtractor)
    (sourceFile : TsNode) : ControllerScopeInfo :=
  scopeVisitNode exts none emptyScopeState sourceFile

mutual

/-- Does the tree rooted at the node contain, at the traversal position
with the given parent kind, an interface declaration named Scope that is
not exported and whose parent is a module block (the exact condition under
which extractControllerScopeInfo records a scope interface)? -/
def hasScopeIntfNode (parentKind : Option SyntaxKind) : TsNode → Bool
  | TsNode.mk k n ex _ _ cs =>
      (decide (parentKind = some SyntaxKind.moduleBlock) && !ex &&
        decide (k = SyntaxKind.interfaceDeclaration) && decide (n = "Scope")) ||
      hasScopeIntfList (some k) cs

/-- List version of hasScopeIntfNode. -/
def hasScopeIntfList (parentKind : Option SyntaxKind) : List TsNode → Bool
  | [] => false
  | c :: cs => hasScopeIntfNode parentKind c || hasScopeIntfList parentKind cs

end

/-- The ControllerViewInfo record of controller-parser.ts. -/
structure ControllerViewInfo where
  controllerName : String
  viewPath : String

/-- The ModelViewInfo record of controller-parser.ts. -/
structure ModelViewInfo where
  modelPath : String
  viewPath : String

/-- A controller-view connector: listens for one syntax kind and returns
controller-view connections for a node (getControllerView(node,
projectPath)). -/
structure ControllerViewConnector where
  interceptAstNode : SyntaxKind
  getControllerView : TsNode → String → List ControllerViewInfo

/-- A model-view connector: listens for one syntax kind and returns
model-view connections (getModelView(filename, node, projectPath)). -/
structure ModelViewConnector where
  interceptAstNode : SyntaxKind
  getModelView : String → TsNode → String → List ModelViewInfo

/-- The per-node controller-view collection of
extractCtrlViewConnsAngularModule: filter the registered connectors whose
intercepted kind matches the node kind, then flat-map their
getControllerView results, in registration order. -/
def ctrlInfosAtNode (conns : List ControllerViewConnector) (node : TsNode)
    (webappPath : String) : List ControllerViewInfo :=
  (conns.filter (fun c => decide (c.interceptAstNode = node.kind))).flatMap
    (fun c => c.getControllerView node webappPath)

/-- The per-node model-view collection of
extractCtrlViewConnsAngularModule: same filter and flat-map over the
model-view connectors. -/
def modelInfosAtNode (conns : List ModelViewConnector) (fileName : String)
    (node : TsNode) (webappPath : String) : List ModelViewInfo :=
  (conns.filter (fun c => decide (c.interceptAstNode = node.kind))).flatMap
    (fun c => c.getModelView fileName node webappPath)

/-- The ViewInfo record of controller-parser.ts, which also serves as the
accumulator state of extractCtrlViewConnsAngularModule. -/
structure ViewInfo where
  fileName : String
  ngModuleName : Option String
  controllerName : Option String
  controllerViewInfos : List ControllerViewInfo
  modelViewInfos : List ModelViewInfo

/-- One visit of nodeExtractModuleOpenAngularModule on a single node.  The
helper parseAngularModule inspects call-expression structure that this
simplified node model does not carry, so the step is parameterized over it
(parseAngularMod); everything else follows the source: the module and
controller names are set from the first matching expression statement while
controllerName is still none, and both info lists are extended by the
filtered flat-mapped connector results. -/
def stepConnNode (parseAngularMod : TsNode → Option (String × String))
    (ctrlConns : List ControllerViewConnector) (modelConns : List ModelViewConnector)
    (webappPath : String) (st : ViewInfo) (node : TsNode) : ViewInfo :=
  let st1 :=
    if st.controllerName = none ∧ node.kind = SyntaxKind.expressionStatement then
      let m := parseAngularMod node
      { st with ngModuleName := m.map Prod.fst, controllerName := m.map Prod.snd }
    else st
  { st1 with
    controllerViewInfos := st1.controllerViewInfos ++ ctrlInfosAtNode ctrlConns node webappPath,
    modelViewInfos :=
      st1.modelViewInfos ++ modelInfosAtNode modelConns st1.fileName node webappPath }

mutual

/-- The recursive traversal of nodeExtractModuleOpenAngularModule: process
the node, then recurse over its children in order. -/
def connVisitNode (parseAngularMod : TsNode → Option (String × String))
    (ctrlConns : List ControllerViewConnector) (modelConns : List ModelViewConnector)
    (webappPath : String) (st : ViewInfo) : TsNode → ViewInfo
  | TsNode.mk k n ex tx tp cs =>
      connVisitList parseAngularMod ctrlConns modelConns webappPath
        (stepConnNode parseAngularMod ctrlConns modelConns webappPath st
          (TsNode.mk k n ex tx tp cs)) cs

/-- Traversal of a child list in order. -/
def connVisitList (parseAngularMod : TsNode → Option (String × String))
    (ctrlConns : List ControllerViewConnector) (modelConns : List ModelViewConnector)
    (webappPath : String) (st : ViewInfo) : List TsNode → ViewInfo
  | [] => st
  | c :: cs =>
      connVisitList parseAngularMod ctrlConns modelConns webappPath
        (connVisitNode parseAngularMod ctrlConns modelConns webappPath st c) cs

end

/-- extractCtrlViewConnsAngularModule of controller-parser.ts: run the
traversal from the source file with empty accumulators. -/
def extractCtrlViewConnsAngularModule (parseAngularMod : TsNode → Option (String × String))
    (ctrlConns : List ControllerViewConnector) (modelConns : List ModelViewConnector)
    (fileName : String) (webappPath : String) (sourceFile : TsNode) : ViewInfo :=
  connVisitNode parseAngularMod ctrlConns modelConns webappPath
    ⟨fileName, none, none, [], []⟩ sourceFile

/-- Promise.all over a list of settled outcomes: the first rejection in
list order rejects the whole, otherwise all fulfilment values are
collected. -/
def promiseAll {E R : Type} : List (Except E R) → Except E (List R)
  | [] => .ok []
  | .error e :: _ => .error e
  | .ok r :: xs =>
      match promiseAll xs with
      | .error e => .error e
      | .ok rs => .ok (r :: rs)

/-- The per-pair analyses started by processProjectFolder, lines 86-88 of
the main file: for every entry (viewName, ctrlNames) of
viewFilenameToCtrlFilenames, the inner JS map eagerly invokes the async
processControllerView on every (ctrlName, viewName) pair, so every pair
obtains its own settled outcome; a rejection of one pair is a value here,
not a control-flow jump, and cancels nothing. -/
def analysesPerformed {E R : Type} (run : String → String → Except E R)
    (entries : List (String × List String)) : List (List (Except E R)) :=
  entries.map (fun e => e.2.map (fun ctrlName => run ctrlName e.1))

/-- The returned aggregate of processProjectFolder: the nested Promise.all
over the per-pair outcomes. -/
def processProjectFolderRun {E R : Type} (run : String → String → Except E R)
    (entries : List (String × List String)) : Except E (List (List R)) :=
  promiseAll ((analysesPerformed run entries).map promiseAll)

/-- The parsed form of the unit-test input
movieInfo.legendEnabled && movieInfo.legend.length > 0. -/
def movieInfoExpr : NgAst :=
  .binary "&&" (.member (.ident "movieInfo") "legendEnabled")
    (.binary ">" (.member (.member (.ident "movieInfo") "legend") "length") (.lit "0"))

/-- The parsed form of the unit-test input (an object literal whose key is
the word name and whose value is the identifier wasProvidedWorkbook). -/
def workbookObjExpr : NgAst :=
  .objectLit (.cons "name" (.ident "wasProvidedWorkbook") .nil)

/-- The parsed form of the unit-test input selectedScreen.images[idx - 1]. -/
def screenIndexExpr : NgAst :=
  .index (.member (.ident "selectedScreen") "images")
    (.binary "-" (.ident "idx") (.lit "1"))

/-- The parsed form of the unit-test regular-expression literal input. -/
def regexTestExpr : NgAst := .regex "^[a-z]+$"

/-- A one-instruction zipped stream holding a single variable binding. -/
def singleVarStream : List (ParsedExpression × Int) :=
  [(ParsedExpression.ParsedVariable "string" (.ident "a"), 0)]

/-- A one-instruction zipped stream holding only a loop header (no
variable binding, hence no fresh name). -/
def loopOnlyStream : List (ParsedExpression × Int) :=
  [(ParsedExpression.LoopStart "for (let w of ws) \x7b", 0)]

/-- A scope frame whose closing text is the word end (used to compare the
emitted scope-close text against a frame closing text). -/
def endFrame : NgScope := ⟨1, fun _ => "end", []⟩

/-- A controller-scope record with a module name and a scope block. -/
def sampleScopeInfoMain : ControllerScopeInfoMain :=
  ⟨some "Mod", some "interface Scope \x7b\x7d", ["import A;"], [], []⟩

/-- A controller-scope record with no scope block. -/
def noScopeInfoMain : ControllerScopeInfoMain := ⟨none, none, [], [], []⟩

/-- A controller source tree that contains a non-exported module-level
interface named Foo and an exported module-level interface named Scope, but
no non-exported module-level interface named Scope. -/
def sampleTreeNoScope : TsNode :=
  TsNode.mk .sourceFile "" false "" 0
    [TsNode.mk .moduleDeclaration "app" false "" 0
      [TsNode.mk .moduleBlock "" false "" 0
        [TsNode.mk .interfaceDeclaration "Foo" false "interface Foo \x7b\x7d" 0 [],
         TsNode.mk .interfaceDeclaration "Scope" true
           "export interface Scope \x7b\x7d" 0 []]]]

/-! ## Helper lemmas -/

mutual

/-- On the empty scope stack, the rewriter qualifies every value-position
identifier: it agrees with the claim-level all-qualifying serialization. -/
theorem addScope_empty_eq : ∀ e : NgAst, addScopeAccessors [] e = qualifyAll e
  | .ident n => by simp [addScopeAccessors, qualifyAll, boundInScope]
  | .lit _ => rfl
  | .strLit _ => rfl
  | .regex _ => rfl
  | .member o p => by rw [addScopeAccessors, qualifyAll, addScope_empty_eq o]
  | .index o i => by
      rw [addScopeAccessors, qualifyAll, addScope_empty_eq o, addScope_empty_eq i]
  | .call f args => by
      rw [addScopeAccessors, qualifyAll, addScope_empty_eq f, addScope_empty_eq_args args]
  | .unary op a => by rw [addScopeAccessors, qualifyAll, addScope_empty_eq a]
  | .binary op l r => by
      rw [addScopeAccessors, qualifyAll, addScope_empty_eq l, addScope_empty_eq r]
  | .ternary c t e => by
      rw [addScopeAccessors, qualifyAll, addScope_empty_eq c, addScope_empty_eq t,
        addScope_empty_eq e]
  | .arrayLit es => by rw [addScopeAccessors, qualifyAll, addScope_empty_eq_args es]
  | .objectLit fs => by rw [addScopeAccessors, qualifyAll, addScope_empty_eq_fields fs]

/-- Argument-list version of addScope_empty_eq. -/
theorem addScope_empty_eq_args : ∀ l : NgAstList, addScopeAccessorsArgs [] l = qualifyAllArgs l
  | .nil => rfl
  | .cons hd .nil => by
      show addScopeAccessors [] hd = qualifyAll hd
      exact addScope_empty_eq hd
  | .cons hd (.cons h2 tl) => by
      show addScopeAccessors [] hd ++ ", " ++ addScopeAccessorsArgs [] (.cons h2 tl) =
        qualifyAll hd ++ ", " ++ qualifyAllArgs (.cons h2 tl)
      rw [addScope_empty_eq hd, addScope_empty_eq_args (.cons h2 tl)]

/-- Field-list version of addScope_empty_eq. -/
theorem addScope_empty_eq_fields :
    ∀ l : NgFieldList, addScopeAccessorsFields [] l = qualifyAllFields l
  | .nil => rfl
  | .cons k v .nil => by
      show k ++ ": " ++ addScopeAccessors [] v = k ++ ": " ++ qualifyAll v
      rw [addScope_empty_eq v]
  | .cons k v (.cons k2 v2 tl) => by
      show k ++ ": " ++ addScopeAccessors [] v ++ ", " ++
          addScopeAccessorsFields [] (.cons k2 v2 tl) =
        k ++ ": " ++ qualifyAll v ++ ", " ++ qualifyAllFields (.cons k2 v2 tl)
      rw [addScope_empty_eq v, addScope_empty_eq_fields (.cons k2 v2 tl)]

end

/-- Rewriting a chain of member accesses renders the base and then each
property name after a dot, verbatim. -/
theorem addScope_foldl_member (scopes : List NgScope) :
    ∀ (xs : List String) (o : NgAst),
      addScopeAccessors scopes (xs.foldl (fun acc p => NgAst.member acc p) o) =
        xs.foldl (fun a p => a ++ "." ++ p) (addScopeAccessors scopes o)
  | [], o => rfl
  | p :: ps, o => by
      rw [List.foldl_cons, List.foldl_cons, addScope_foldl_member scopes ps]
      rfl

/-- A dotted foldl distributes over a leading append. -/
theorem foldl_dot_append :
    ∀ (xs : List String) (s t : String),
      xs.foldl (fun a p => a ++ "." ++ p) (s ++ t) =
        s ++ xs.foldl (fun a p => a ++ "." ++ p) t
  | [], s, t => rfl
  | p :: ps, s, t => by
      have h : s ++ t ++ "." ++ p = s ++ (t ++ "." ++ p) := by
        rw [String.append_assoc, String.append_assoc, String.append_assoc]
      rw [List.foldl_cons, List.foldl_cons, h, foldl_dot_append ps s (t ++ "." ++ p)]

/-- A dotted foldl introduces no dollar character when neither the
accumulator nor any path component holds one. -/
theorem dollar_not_mem_foldl :
    ∀ (xs : List String) (acc : String), ¬ '$' ∈ acc.data →
      (∀ n ∈ xs, ¬ '$' ∈ n.data) →
      ¬ '$' ∈ (xs.foldl (fun a p => a ++ "." ++ p) acc).data
  | [], _, ha, _ => ha
  | p :: ps, acc, ha, h => by
      rw [List.foldl_cons]
      refine dollar_not_mem_foldl ps (acc ++ "." ++ p) ?_
        (fun n hn => h n (List.mem_cons_of_mem _ hn))
      rw [String.data_append, String.data_append]
      intro hm
      rcases List.mem_append.mp hm with hm2 | hm2
      · rcases List.mem_append.mp hm2 with hm3 | hm3
        · exact ha hm3
        · simp at hm3
      · exact h p (List.mem_cons_self _ _) hm2

/-! ## Claim theorems -/

/-- Claim C1: with the empty scope stack, an expression that is a single
dotted path has the component-accessor text prepended to it exactly once
(the output is the plain dotted rendering with the accessor in front, and
it holds exactly one dollar character when none of the path components
holds one); and in every expression, every free value-position identifier
occurrence is rewritten with the accessor prepended (the rewriter agrees
with the all-qualifying serialization on the empty stack). -/
theorem claim_c1_single_path_qualified_once (x : String) (xs : List String) :
    (addScopeAccessors [] (mkPath x xs) = "$scope." ++ dotted x xs) ∧
    ((∀ n ∈ x :: xs, ¬ '$' ∈ n.data) →
      ((addScopeAccessors [] (mkPath x xs)).data.count '$') = 1) ∧
    (∀ e : NgAst, addScopeAccessors [] e = qualifyAll e) := by
  have hx : addScopeAccessors [] (NgAst.ident x) = "$scope." ++ x := by
    simp [addScopeAccessors, boundInScope]
  have hpath : addScopeAccessors [] (mkPath x xs) = "$scope." ++ dotted x xs := by
    unfold mkPath dotted
    rw [addScope_foldl_member, hx, foldl_dot_append]
  refine ⟨hpath, ?_, addScope_empty_eq⟩
  intro h
  rw [hpath, String.data_append, List.count_append]
  have h0 : ¬ '$' ∈ (dotted x xs).data := by
    unfold dotted
    exact dollar_not_mem_foldl xs x (h x (List.mem_cons_self _ _))
      (fun n hn => h n (List.mem_cons_of_mem _ hn))
  rw [List.count_eq_zero.mpr h0]
  decide

/-- Witness for claim C1 at the unit-test input data.value. -/
theorem claim_c1_witness :
    addScopeAccessors [] (mkPath "data" ["value"]) = "$scope.data.value" ∧
    ((addScopeAccessors [] (mkPath "data" ["value"])).data.count '$') = 1 := by
  have h := claim_c1_single_path_qualified_once "data" ["value"]
  exact ⟨h.1.trans rfl, h.2.1 (by decide)⟩

/-- Claim C2: for every scope stack, a property-name-position identifier
(after a dot) and an object-literal key are emitted verbatim, outside the
rewriting, while object-literal values are rewritten; at the unit-test
inputs, the object value wasProvidedWorkbook is qualified while the key
name is not (exactly one dollar in the output), and in the compound
movieInfo expression only the two movieInfo occurrences are qualified
(exactly two dollars: legendEnabled, legend and length stay bare). -/
theorem claim_c2_property_positions_verbatim (scopes : List NgScope) (o : NgAst)
    (p k : String) (v : NgAst) (fs : NgFieldList) :
    (addScopeAccessors scopes (NgAst.member o p) = addScopeAccessors scopes o ++ "." ++ p) ∧
    (addScopeAccessors scopes (NgAst.objectLit (NgFieldList.cons k v fs)) =
      "\x7b" ++ addScopeAccessorsFields scopes (NgFieldList.cons k v fs) ++ "\x7d") ∧
    (addScopeAccessorsFields scopes (NgFieldList.cons k v NgFieldList.nil) =
      k ++ ": " ++ addScopeAccessors scopes v) ∧
    (addScopeAccessors [] workbookObjExpr = "\x7bname: $scope.wasProvidedWorkbook\x7d") ∧
    ((addScopeAccessors [] workbookObjExpr).data.count '$' = 1) ∧
    (addScopeAccessors [] movieInfoExpr =
      "$scope.movieInfo.legendEnabled && $scope.movieInfo.legend.length > 0") ∧
    ((addScopeAccessors [] movieInfoExpr).data.count '$' = 2) :=
  ⟨rfl, rfl, rfl, by decide, by decide, by decide, by decide⟩

/-- Claim C3: for every scope stack, a regular-expression literal is
emitted in constructor-call form, with the pattern in a double-quoted
string; this holds at the unit-test input and also when the literal sits
inside a compound expression (here a call argument). -/
theorem claim_c3_regex_constructor_form (scopes : List NgScope) (p : String) :
    (addScopeAccessors scopes (NgAst.regex p) = "new RegExp(\"" ++ p ++ "\")") ∧
    (addScopeAccessors [] regexTestExpr = "new RegExp(\"^[a-z]+$\")") ∧
    (addScopeAccessors scopes
        (NgAst.call (NgAst.ident "check") (NgAstList.cons (NgAst.regex p) NgAstList.nil)) =
      addScopeAccessors scopes (NgAst.ident "check") ++ "(" ++
        ("new RegExp(\"" ++ p ++ "\")") ++ ")") :=
  ⟨rfl, by decide, rfl⟩

/-- Claim C4: for every scope stack, an index expression rewrites both the
indexed operand and the index operand; at the unit-test input with the
empty stack both free identifiers selectedScreen and idx are qualified
(exactly two dollars in the output). -/
theorem claim_c4_index_rewrites_both (scopes : List NgScope) (o i : NgAst) :
    (addScopeAccessors scopes (NgAst.index o i) =
      addScopeAccessors scopes o ++ "[" ++ addScopeAccessors scopes i ++ "]") ∧
    (addScopeAccessors [] screenIndexExpr = "$scope.selectedScreen.images[$scope.idx - 1]") ∧
    ((addScopeAccessors [] screenIndexExpr).data.count '$' = 2) :=
  ⟨rfl, by decide, by decide⟩

/-- The counter returned by a synthesis run is the starting counter plus
the number of variable bindings in the stream. -/
theorem formatStream_snd : ∀ (s : List (ParsedExpression × Int)) (i : Nat),
    (formatStream i s).2 = i + countVars s
  | [], _ => rfl
  | (e, lvl) :: xs, i => by
      cases e with
      | ParsedVariable ty ex =>
          simp only [formatStream, formatViewExpr, countVars, formatStream_snd xs]
          omega
      | LoopStart le =>
          simp only [formatStream, formatViewExpr, countVars, formatStream_snd xs]
      | LoopEnd =>
          simp only [formatStream, formatViewExpr, countVars, formatStream_snd xs]

/-- When the stream holds no variable binding, the emitted text does not
depend on the starting counter. -/
theorem formatStream_fst_counter_free :
    ∀ (s : List (ParsedExpression × Int)) (i j : Nat), countVars s = 0 →
      (formatStream i s).1 = (formatStream j s).1
  | [], _, _, _ => rfl
  | (e, lvl) :: xs, i, j, h => by
      cases e with
      | ParsedVariable ty ex => simp [countVars] at h
      | LoopStart le =>
          simp only [formatStream, formatViewExpr]
          rw [formatStream_fst_counter_free xs i j (by simpa [countVars] using h)]
      | LoopEnd =>
          simp only [formatStream, formatViewExpr]
          rw [formatStream_fst_counter_free xs i j (by simpa [countVars] using h)]

/-- Claim C5, amended: the synthesized lines are a deterministic function
of the input stream and of the module-global fresh-name counter value at
the start of the run, not of the input alone.  The counter advances by the
number of variable bindings, a second in-process run on the same input
behaves exactly like a run started at that advanced counter, and only for
a stream with no variable binding is the text independent of the starting
counter. -/
theorem claim_c5_amended_counter_dependence (s : List (ParsedExpression × Int)) (i : Nat) :
    ((formatStream i s).2 = i + countVars s) ∧
    (formatStream ((formatStream i s).2) s = formatStream (i + countVars s) s) ∧
    (countVars s = 0 → (formatStream i s).1 = (formatStream 0 s).1) :=
  ⟨formatStream_snd s i, by rw [formatStream_snd s i],
    fun h => formatStream_fst_counter_free s i 0 h⟩

/-- Witness for the amended claim C5: a loop-only stream formats to the
same text from counter 5 as from counter 0. -/
theorem claim_c5_witness :
    (formatStream 5 loopOnlyStream).1 = (formatStream 0 loopOnlyStream).1 :=
  (claim_c5_amended_counter_dependence loopOnlyStream 5).2.2 (by decide)

/-- Counterexample to claim C5 as stated: running the synthesis twice in
the same process on the same one-variable input (the second run starting
at the counter the first run left behind, as the module-global
var i is never reset) yields ___x1 where the first run yields ___x0, so
the two outputs are not byte-identical and the numbering is not a function
of the input alone. -/
theorem claim_c5_counterexample :
    ((formatStream 0 singleVarStream).1 = ["    const ___x0: string = $scope.a;"]) ∧
    ((formatStream ((formatStream 0 singleVarStream).2) singleVarStream).1 =
      ["    const ___x1: string = $scope.a;"]) ∧
    ((formatStream ((formatStream 0 singleVarStream).2) singleVarStream).1 ≠
      (formatStream 0 singleVarStream).1) := by
  refine ⟨by decide, by decide, by decide⟩

/-- Claim C6: whenever the controller has a scope block, the synthesized
output is exactly the claim-level unit: the formatted stream wrapped in the
synthetic function whose single parameter $scope is typed as the Scope data
shape, preceded by the imports, type aliases, interfaces and scope
contents, and wrapped in the TS module when one exists; the fresh-name
counter advances with the formatted stream. -/
theorem claim_c6_synthesized_wrapper (info : ControllerScopeInfoMain)
    (viewExprs : List ParsedExpression) (i : Nat) (sc : String)
    (h : info.scopeContents = some sc) :
    processControllerView info viewExprs i =
      some (claimSynthUnit info sc
          (String.intercalate "\n" (formatStream i (viewExprs.zip (viewLevels viewExprs))).1),
        (formatStream i (viewExprs.zip (viewLevels viewExprs))).2) := by
  unfold processControllerView claimSynthUnit moduleWrap
  rw [h]
  cases info.tsModuleName with
  | none => simp
  | some n => simp [String.append_assoc]

/-- Witness for claim C6 at a concrete controller-scope record. -/
theorem claim_c6_witness :
    processControllerView sampleScopeInfoMain [] 0 =
      some (claimSynthUnit sampleScopeInfoMain "interface Scope \x7b\x7d"
          (String.intercalate "\n" (formatStream 0 (List.zip [] (viewLevels []))).1),
        (formatStream 0 (List.zip [] (viewLevels []))).2) :=
  claim_c6_synthesized_wrapper sampleScopeInfoMain [] 0 "interface Scope \x7b\x7d" rfl

/-- Claim C7: the per-pair analyses of processProjectFolder are an eager
map over all (controller, view) pairs: the outcome slot of a pair is a
function of that pair and of the per-pair analysis alone (a failure of some
other pair is only a value in its own slot and does not stop or change the
processing of any other pair), every entry is processed (the lengths
agree), and the promise aggregate the function returns is exactly the
nested Promise.all over those per-pair outcomes. -/
theorem claim_c7_per_pair_isolation {E R : Type} (run : String → String → Except E R)
    (entries : List (String × List String)) (idx : Nat) :
    ((analysesPerformed run entries)[idx]? =
      (entries[idx]?).map (fun e => e.2.map (fun c => run c e.1))) ∧
    ((analysesPerformed run entries).length = entries.length) ∧
    (processProjectFolderRun run entries =
      promiseAll ((analysesPerformed run entries).map promiseAll)) := by
  refine ⟨?_, ?_, rfl⟩
  · unfold analysesPerformed
    rw [List.getElem?_map]
  · unfold analysesPerformed
    rw [List.length_map]

/-- Filtering a registry by a boolean key test and flat-mapping the
matching handlers equals the registration-order concatenation of each
handler's output, the non-matching ones contributing nothing. -/
theorem filter_flatMap_foldr {α β : Type} (p : α → Bool) (g : α → List β) :
    ∀ l : List α, (l.filter p).flatMap g =
      l.foldr (fun c acc => (if p c then g c else []) ++ acc) []
  | [] => rfl
  | x :: xs => by
      rw [List.foldr_cons, ← filter_flatMap_foldr p g xs]
      by_cases h : p x
      · simp [List.filter_cons, h]
      · simp [List.filter_cons, h]

/-- The scope-extraction step always appends the node's collected view
fragments at the end, whatever its other updates do. -/
theorem stepScopeNode_viewFragments (exts : List CtrlViewFragmentExtractor)
    (pk : Option SyntaxKind) (st : ControllerScopeInfo) (node : TsNode) :
    (stepScopeNode exts pk st node).viewFragments =
      st.viewFragments ++ viewFragmentsAtNode exts node := by
  unfold stepScopeNode
  rcases hps : parseScopeInterface node with _ | fs <;>
    simp only [hps] <;> split_ifs <;> simp

/-- Claim C8: at every visited node, every registered connector whose
intercepted syntax kind matches the node kind is invoked — the collected
lists equal the registration-order concatenation over ALL connectors of
each matching connector's output (not only the first match) — for the
controller-view connectors, the model-view connectors and the
view-fragment extractors alike; and the traversal step appends those
collections to the running accumulators in that order. -/
theorem claim_c8_all_matching_connectors (ctrlConns : List ControllerViewConnector)
    (modelConns : List ModelViewConnector) (exts : List CtrlViewFragmentExtractor)
    (parseAngularMod : TsNode → Option (String × String)) (node : TsNode)
    (webappPath : String) (st : ViewInfo) (stScope : ControllerScopeInfo) :
    (ctrlInfosAtNode ctrlConns node webappPath =
      ctrlConns.foldr (fun c acc =>
        (if c.interceptAstNode = node.kind then c.getControllerView node webappPath
         else []) ++ acc) []) ∧
    (modelInfosAtNode modelConns st.fileName node webappPath =
      modelConns.foldr (fun c acc =>
        (if c.interceptAstNode = node.kind then c.getModelView st.fileName node webappPath
         else []) ++ acc) []) ∧
    (viewFragmentsAtNode exts node =
      exts.foldr (fun e acc =>
        (if e.interceptAstNode = node.kind then e.getViewFragments node
         else []) ++ acc) []) ∧
    ((stepConnNode parseAngularMod ctrlConns modelConns webappPath st node).controllerViewInfos =
      st.controllerViewInfos ++ ctrlInfosAtNode ctrlConns node webappPath) ∧
    ((stepConnNode parseAngularMod ctrlConns modelConns webappPath st node).modelViewInfos =
      st.modelViewInfos ++ modelInfosAtNode modelConns st.fileName node webappPath) ∧
    ((stepScopeNode exts (some SyntaxKind.moduleBlock) stScope node).viewFragments =
      stScope.viewFragments ++ viewFragmentsAtNode exts node) := by
  refine ⟨?_, ?_, ?_, ?_, ?_, ?_⟩
  · rw [ctrlInfosAtNode, filter_flatMap_foldr]
    simp only [decide_eq_true_eq]
  · rw [modelInfosAtNode, filter_flatMap_foldr]
    simp only [decide_eq_true_eq]
  · rw [viewFragmentsAtNode, filter_flatMap_foldr]
    simp only [decide_eq_true_eq]
  · unfold stepConnNode
    split <;> simp
  · unfold stepConnNode
    split <;> simp
  · exact stepScopeNode_viewFragments exts (some SyntaxKind.moduleBlock) stScope node

/-- The JS reduce computing the indent levels, started from any
accumulator, appends the inclusive running sums continued from the
accumulator's last entry. -/
theorem foldl_levels_eq :
    ∀ (s : List ParsedExpression) (acc : List Int),
      s.foldl (fun soFar cur => soFar ++ [(soFar.getLast?.getD 0) + indentChange cur]) acc =
        acc ++ levelsFrom (acc.getLast?.getD 0) s
  | [], acc => by simp [levelsFrom]
  | x :: xs, acc => by
      rw [List.foldl_cons, foldl_levels_eq xs]
      have hlast : ((acc ++ [acc.getLast?.getD 0 + indentChange x]).getLast?.getD 0) =
          acc.getLast?.getD 0 + indentChange x := by
        rw [List.getLast?_concat]
        rfl
      rw [hlast, List.append_assoc]
      rfl

/-- The indent levels are the inclusive running sums of the indent changes
starting at zero. -/
theorem viewLevels_eq_levelsFrom (s : List ParsedExpression) :
    viewLevels s = levelsFrom 0 s := by
  unfold viewLevels
  rw [foldl_levels_eq s []]
  rfl

/-- The running indent sums of a concatenation: the second part continues
from the first part's total change. -/
theorem levelsFrom_append :
    ∀ (xs ys : List ParsedExpression) (a : Int),
      levelsFrom a (xs ++ ys) = levelsFrom a xs ++ levelsFrom (a + sumIC xs) ys
  | [], ys, a => by simp [levelsFrom, sumIC]
  | x :: xs, ys, a => by
      simp only [List.cons_append, levelsFrom, List.append_eq]
      rw [levelsFrom_append xs ys (a + indentChange x)]
      have h : a + indentChange x + sumIC xs = a + sumIC (x :: xs) := by
        simp only [sumIC, List.map_cons, List.sum_cons]
        omega
      rw [h]

/-- Claim C9, amended: a Scope-Open (LoopStart) is emitted with its header
text verbatim at its own level and raises the level of everything up to
its matching close by one; the matching Scope-Close (LoopEnd) is emitted
as a literal closing brace (the formatter consults no frame closing text)
at the decreased level, which renders at the same indentation as its open;
and a variable binding sitting between the open and its balanced close is
rendered one four-space level deeper than the loop header. -/
theorem claim_c9_amended_indent_discipline (pre mid post : List ParsedExpression)
    (le ty : String) (ex : NgAst) (d : Int) (i j k : Nat)
    (hd : d = sumIC pre + 1) (hmid : sumIC mid = 0) :
    (viewLevels (pre ++ ParsedExpression.LoopStart le ::
        (mid ++ ParsedExpression.LoopEnd :: post)) =
      levelsFrom 0 pre ++ d :: (levelsFrom d mid ++ (d - 1) :: levelsFrom (d - 1) post)) ∧
    (formatViewExpr i (ParsedExpression.LoopStart le, d) = (jsSpaces (d * 4) ++ le, i)) ∧
    ((formatViewExpr j (ParsedExpression.LoopEnd, d - 1)).1 = jsSpaces (d * 4) ++ "\x7d") ∧
    ((formatViewExpr k (ParsedExpression.ParsedVariable ty ex, d)).1 =
      jsSpaces (d * 4 + 4) ++ "const ___x" ++ toString k ++ ": " ++ ty ++ " = " ++
        addScopeAccessors [] ex ++ ";") ∧
    (∀ m1 m2, mid = m1 ++ ParsedExpression.ParsedVariable ty ex :: m2 → sumIC m1 = 0 →
      levelsFrom d mid = levelsFrom d m1 ++ d :: levelsFrom d m2) := by
  refine ⟨?_, ?_, ?_, ?_, ?_⟩
  · rw [viewLevels_eq_levelsFrom, levelsFrom_append]
    simp only [levelsFrom, indentChange, zero_add]
    have h1 : sumIC pre + 1 = d := hd.symm
    rw [h1, levelsFrom_append, hmid, add_zero]
    simp only [levelsFrom, indentChange]
    have h2 : d + -1 = d - 1 := by omega
    rw [h2]
  · rfl
  · show jsSpaces ((1 + (d - 1)) * 4) ++ "\x7d" = jsSpaces (d * 4) ++ "\x7d"
    have h : (1 + (d - 1)) * 4 = d * 4 := by omega
    rw [h]
  · show jsSpaces ((1 + d) * 4) ++ "const ___x" ++ toString k ++ ": " ++ ty ++ " = " ++
        addScopeAccessors [] ex ++ ";" = _
    have h : (1 + d) * 4 = d * 4 + 4 := by omega
    rw [h]
  · intro m1 m2 hm hm1
    subst hm
    rw [levelsFrom_append, hm1, add_zero]
    simp only [levelsFrom, indentChange, add_zero]

/-- Witness for the amended claim C9: the loop header for (x) opens at
level 1, a variable binding inside sits at level 1 (rendered one level
deeper), and the close returns to align with the open. -/
theorem claim_c9_witness :
    (formatViewExpr 3 (ParsedExpression.LoopEnd, (1:Int) - 1)).1 =
      jsSpaces ((1:Int) * 4) ++ "\x7d" :=
  (claim_c9_amended_indent_discipline [] [ParsedExpression.ParsedVariable "string" (.ident "a")]
    [] "for (x) \x7b" "string" (.ident "a") 1 0 3 0 (by decide) (by decide)).2.2.1

/-- Counterexample to claim C9 as stated: a Scope-Close is not emitted as
the frame's closing text; the formatter emits a hard-coded closing brace.
For a frame whose closing text is the word end, the emitted close at level
zero is four spaces and a brace, not four spaces and the frame's closing
text. -/
theorem claim_c9_counterexample :
    ((formatViewExpr 0 (ParsedExpression.LoopEnd, (0:Int))).1 = jsSpaces 4 ++ "\x7d") ∧
    ((formatViewExpr 0 (ParsedExpression.LoopEnd, (0:Int))).1 ≠
      jsSpaces ((1 + (0:Int)) * 4) ++ endFrame.closeSource ()) := by
  constructor
  · rfl
  · decide

/-- The scope-extraction step leaves the recorded scope interface
untouched unless the node is a non-exported interface declaration named
Scope whose parent is a module block. -/
theorem stepScopeNode_scopeInfo (exts : List CtrlViewFragmentExtractor)
    (pk : Option SyntaxKind) (st : ControllerScopeInfo) (node : TsNode)
    (h : ¬(pk = some SyntaxKind.moduleBlock ∧ node.isExported = false ∧
        node.kind = SyntaxKind.interfaceDeclaration ∧ node.name = "Scope")) :
    (stepScopeNode exts pk st node).scopeInfo = st.scopeInfo := by
  unfold stepScopeNode
  rcases hps : parseScopeInterface node with _ | fs
  · simp only [hps]
    split_ifs <;> simp
  · have hname : node.name = "Scope" := by
      by_contra hn
      unfold parseScopeInterface at hps
      rw [if_neg hn] at hps
      exact Option.noConfusion hps
    simp only [hps]
    split_ifs <;> simp_all

mutual

/-- Over a whole subtree containing no non-exported module-level interface
named Scope (at the traversal's parent-kind position), the extraction
traversal leaves the recorded scope interface untouched. -/
theorem scopeVisitNode_scopeInfo (exts : List CtrlViewFragmentExtractor) :
    ∀ (pk : Option SyntaxKind) (st : ControllerScopeInfo) (node : TsNode),
      hasScopeIntfNode pk node = false →
      (scopeVisitNode exts pk st node).scopeInfo = st.scopeInfo
  | pk, st, TsNode.mk k n ex tx tp cs, h => by
      rw [scopeVisitNode]
      rw [hasScopeIntfNode] at h
      have h2 := Bool.or_eq_false_iff.mp h
      rw [scopeVisitList_scopeInfo exts (some k) _ cs h2.2]
      apply stepScopeNode_scopeInfo
      intro hc
      have hg := h2.1
      simp only [TsNode.isExported, TsNode.kind, TsNode.name] at hc
      simp [hc.1, hc.2.1, hc.2.2.1, hc.2.2.2] at hg

/-- List version of scopeVisitNode_scopeInfo. -/
theorem scopeVisitList_scopeInfo (exts : List CtrlViewFragmentExtractor) :
    ∀ (pk : Option SyntaxKind) (st : ControllerScopeInfo) (l : List TsNode),
      hasScopeIntfList pk l = false →
      (scopeVisitList exts pk st l).scopeInfo = st.scopeInfo
  | _, _, [], _ => rfl
  | pk, st, c :: cs, h => by
      rw [scopeVisitList]
      rw [hasScopeIntfList] at h
      have h2 := Bool.or_eq_false_iff.mp h
      rw [scopeVisitList_scopeInfo exts pk _ cs h2.2,
        scopeVisitNode_scopeInfo exts pk st c h2.1]

end

/-- Claim C10: a controller file containing no non-exported module-level
interface named exactly Scope extracts to a scope-contents field of none,
and processControllerView returns early on a none scope-contents record,
writing nothing for that (controller, view) pair. -/
theorem claim_c10_no_scope_no_output (exts : List CtrlViewFragmentExtractor)
    (tree : TsNode) (info : ControllerScopeInfoMain)
    (viewExprs : List ParsedExpression) (i : Nat)
    (h1 : hasScopeIntfNode none tree = false)
    (h2 : info.scopeContents = none) :
    ((extractControllerScopeInfo exts tree).scopeInfo = none) ∧
    (processControllerView info viewExprs i = none) := by
  constructor
  · unfold extractControllerScopeInfo
    rw [scopeVisitNode_scopeInfo exts none emptyScopeState tree h1]
    rfl
  · unfold processControllerView
    rw [h2]

/-- Witness for claim C10: a tree whose module block holds a non-exported
interface Foo and an exported interface Scope (hence no non-exported
module-level Scope) extracts no scope interface, and a scope-less record
produces no output. -/
theorem claim_c10_witness :
    ((extractControllerScopeInfo [] sampleTreeNoScope).scopeInfo = none) ∧
    (processControllerView noScopeInfoMain [] 0 = none) :=
  claim_c10_no_scope_no_output [] sampleTreeNoScope noScopeInfoMain [] 0 (by decide) rfl

